import Mathlib

/-!
# wolproxy.c: a forwarder for Wake-on-LAN magic packets

Shallow embedding of the packet-processing code of `src/wolproxy.c`
(the non-WIN32 branch): `GetInterfaces`, `IsLocalIp`, `SendBroadcast`,
`ForwardWol` and the body of the receive loop of `main`.

Conventions of the embedding.

* The globals `LocalAddr`, `Broadcast`, `Netmask`, `AddrCount` are the fields of
  `Registry`, passed explicitly.  The three arrays are index-to-value maps, so
  that a store at any index is visible; their declared length is `ADDR_SLOTS`.
* `in_addr.s_addr` and `sockaddr_in.sin_port` hold values in network byte
  order.  They are represented by the number their bytes denote read in
  network order.  The code only copies these fields, compares them for equality
  or against zero and combines them with the bitwise and, all of which commute
  with the byte swap of a little-endian host, so the representation loses
  nothing; `htons`, `htonl`, `ntohs` are then reductions to the field width.
* Effects (`LogInfo`, `sendto`, `exitp`) are recorded as a list of `Event`s in
  program order.  The values returned by the environment (the datagram handed
  over by `recvfrom`, the return value of every `sendto`) are parameters.
-/

namespace WolProxy

/-! ## Constants and data -/

/-- One octet of a datagram, as stored in the `char` receive buffer. -/
abbrev Byte := Fin 256

/-- Source: `#define PORT 9`. -/
def PORT : Nat := 9

/-- Source: `#define PSIZE 102`. -/
def PSIZE : Nat := 102

/-- Source: `#define BSIZE 256`. -/
def BSIZE : Nat := 256

/-- Declared length of the static arrays `LocalAddr[10]`, `Broadcast[10]`,
`Netmask[10]`. -/
def ADDR_SLOTS : Nat := 10

/-- Address family constant of `<sys/socket.h>`; the header is not part of the
repository, the value is the one of Linux, the BSDs and Winsock. -/
def AF_INET : Nat := 2

/-- Interface flag of `<net/if.h>`; the header is not part of the repository,
the value is the one of Linux and the BSDs. -/
def IFF_LOOPBACK : Nat := 8

/-- Constant of `<netinet/in.h>`: the limited broadcast address, host order. -/
def INADDR_BROADCAST : Nat := 0xFFFFFFFF

/-- C `struct in_addr`. -/
structure in_addr where
  s_addr : Nat
deriving DecidableEq

/-- C `struct sockaddr_in` (the fields the program uses). -/
structure sockaddr_in where
  sin_family : Nat
  sin_port : Nat
  sin_addr : in_addr
deriving DecidableEq

/-- Host to network order, 16 bit. -/
def htons (x : Nat) : Nat := x % 65536

/-- Network to host order, 16 bit. -/
def ntohs (x : Nat) : Nat := x % 65536

/-- Host to network order, 32 bit. -/
def htonl (x : Nat) : Nat := x % 4294967296

/-- Libc `inet_ntoa`: the dotted decimal text of the four address bytes in
network order. -/
def inet_ntoa (a : in_addr) : String :=
  toString (a.s_addr / 16777216 % 256) ++ "." ++
  toString (a.s_addr / 65536 % 256) ++ "." ++
  toString (a.s_addr / 256 % 256) ++ "." ++
  toString (a.s_addr % 256)

/-- Observable effects of the program, in program order. -/
inductive Event where
  | log (line : String)
  | sendto (data : List Byte) (len : Nat) (dest : sockaddr_in)
  | exitp (msg : String)
deriving DecidableEq

/-- Source: `LogInfo`.  The argument is the text `vsprintf` leaves in `buffer`;
it goes to the console or to syslog as one message. -/
def LogInfo (buffer : String) : Event := Event.log buffer

/-- The globals `LocalAddr`, `Broadcast`, `Netmask` and `AddrCount`. -/
structure Registry where
  LocalAddr : Nat → in_addr
  Broadcast : Nat → in_addr
  Netmask : Nat → in_addr
  AddrCount : Nat

/-- Array store `a[i] = v`. -/
def store (a : Nat → in_addr) (i : Nat) (v : in_addr) : Nat → in_addr :=
  fun j => if j = i then v else a j

/-- The zero-initialised statics at program start. -/
def Registry.initial : Registry :=
  ⟨fun _ => ⟨0⟩, fun _ => ⟨0⟩, fun _ => ⟨0⟩, 0⟩

/-! ## GetInterfaces (unix branch) -/

/-- One node of the list returned by `getifaddrs` (the fields the program
reads); `ifa_addr` may be `NULL`. -/
structure ifaddrs where
  ifa_flags : Nat
  ifa_addr : Option sockaddr_in
  ifa_netmask : sockaddr_in
  ifa_broadaddr : sockaddr_in
deriving DecidableEq

/-- Printf conversion `%-15s`: left-justified in a field of width 15. -/
def fmtLeft15 (s : String) : String :=
  s ++ String.mk (List.replicate (15 - s.length) ' ')

/-- Source: `DumpInterfaceInfo`. -/
def DumpInterfaceInfo (reg : Registry) (i : Nat) : Event :=
  let ip := inet_ntoa (reg.LocalAddr i)
  let bc := inet_ntoa (reg.Broadcast i)
  let nm := inet_ntoa (reg.Netmask i)
  LogInfo ("IP " ++ fmtLeft15 ip ++ " netmask " ++ fmtLeft15 nm ++
    " broadcast " ++ fmtLeft15 bc ++ "\n")

/-- The condition of the `if` in the `while (p)` loop of `GetInterfaces`:
`family == AF_INET && sin_addr.s_addr > 0 && (ifa_flags & IFF_LOOPBACK) == 0`,
where `family` is 0 when `ifa_addr` is `NULL`. -/
def GetInterfaces.qualifies (p : ifaddrs) : Bool :=
  let family := match p.ifa_addr with
    | some a => a.sin_family
    | none => 0
  family == AF_INET &&
  (match p.ifa_addr with
    | some a => decide (a.sin_addr.s_addr > 0)
    | none => false) &&
  (p.ifa_flags &&& IFF_LOOPBACK) == 0

/-- The address the three `memcpy`s read from `ifa_addr`. -/
def GetInterfaces.addrOf (p : ifaddrs) : in_addr :=
  match p.ifa_addr with
  | some a => a.sin_addr
  | none => ⟨0⟩

/-- One pass through the body of the `while (p)` loop of `GetInterfaces`. -/
def GetInterfaces.visit (acc : Registry × List Event) (p : ifaddrs) :
    Registry × List Event :=
  if GetInterfaces.qualifies p then
    let reg := acc.1
    let reg1 : Registry :=
      { LocalAddr := store reg.LocalAddr reg.AddrCount (GetInterfaces.addrOf p)
        Netmask := store reg.Netmask reg.AddrCount p.ifa_netmask.sin_addr
        Broadcast := store reg.Broadcast reg.AddrCount p.ifa_broadaddr.sin_addr
        AddrCount := reg.AddrCount }
    ({ reg1 with AddrCount := reg1.AddrCount + 1 },
      acc.2 ++ [DumpInterfaceInfo reg1 reg1.AddrCount])
  else acc

/-- Source: `GetInterfaces`, unix branch.  `ifap` is what `getifaddrs` yields:
`none` when it fails, else the linked list in order.  The returned registry is
the state of the globals afterwards; the C return value is its `AddrCount`. -/
def GetInterfaces (reg : Registry) (ifap : Option (List ifaddrs)) :
    Registry × List Event :=
  let reg0 : Registry := { reg with AddrCount := 0 }
  match ifap with
  | some l => l.foldl GetInterfaces.visit (reg0, [])
  | none => (reg0, [])

/-! ## IsLocalIp -/

/-- The `for` loop of `IsLocalIp` from index `i` on, with `n` iterations left
(`n = AddrCount - i`). -/
def IsLocalIp.loop (reg : Registry) (addr : in_addr) : Nat → Nat → Bool
  | 0, _ => false
  | n + 1, i =>
    let mynetwork := (reg.LocalAddr i).s_addr &&& (reg.Netmask i).s_addr
    let other := addr.s_addr &&& (reg.Netmask i).s_addr
    if mynetwork == other then true
    else IsLocalIp.loop reg addr n (i + 1)

/-- Source: `IsLocalIp`; the C result 1 is `true`, 0 is `false`. -/
def IsLocalIp (reg : Registry) (addr : in_addr) : Bool :=
  IsLocalIp.loop reg addr reg.AddrCount 0

/-! ## SendBroadcast and ForwardWol -/

/-- Source: `SendBroadcast`.  `res` is the value `sendto` returns. -/
def SendBroadcast (data : List Byte) (broadcast : sockaddr_in) (res : Int) :
    List Event :=
  Event.sendto data PSIZE broadcast ::
    (if res == (PSIZE : Int) then
      [LogInfo ("      " ++ inet_ntoa broadcast.sin_addr ++ "\n")]
    else [])

/-- The `for` loop of `ForwardWol` from index `i` on, with `n` iterations
left. -/
def ForwardWol.loop (reg : Registry) (data : List Byte) (broadcast : sockaddr_in)
    (sendRes : Nat → Int) : Nat → Nat → List Event
  | 0, _ => []
  | n + 1, i =>
    let broadcast1 : sockaddr_in := { broadcast with sin_addr := ⟨(reg.Broadcast i).s_addr⟩ }
    SendBroadcast data broadcast1 (sendRes i) ++
      ForwardWol.loop reg data broadcast1 sendRes n (i + 1)

/-- Source: `ForwardWol`.  `sendRes k` is the value returned by the `sendto`
of the call number `k` (from 0) of this invocation. -/
def ForwardWol (reg : Registry) (data : List Byte) (sendRes : Nat → Int) :
    List Event :=
  let broadcast : sockaddr_in :=
    { sin_family := AF_INET, sin_port := htons PORT, sin_addr := ⟨0⟩ }
  if reg.AddrCount == 0 then
    SendBroadcast data { broadcast with sin_addr := ⟨htonl INADDR_BROADCAST⟩ } (sendRes 0)
  else
    ForwardWol.loop reg data broadcast sendRes reg.AddrCount 0

/-! ## The receive loop of main -/

/-- What the socket hands to one `recvfrom` call. -/
inductive Incoming where
  | failure
  | datagram (bytes : List Byte) (src : sockaddr_in)
deriving DecidableEq

/-- The locals of `main` that live across iterations of the loop. -/
structure LoopState where
  buffer : List Byte
  sender : sockaddr_in
deriving DecidableEq

/-- Libc `recvfrom` on the datagram socket with the `BSIZE` byte buffer: on
failure -1 and nothing is stored; else the datagram, cut to the buffer size,
overwrites the start of the buffer, the source address is stored in `sender`
and the number of bytes stored is returned. -/
def recvfrom (st : LoopState) : Incoming → Int × LoopState
  | .failure => (-1, st)
  | .datagram bytes src =>
    (((min bytes.length BSIZE : Nat) : Int),
      { buffer := bytes.take BSIZE ++ st.buffer.drop (min bytes.length BSIZE)
        sender := src })

/-- Conversion of an integer to C `char`, then promoted back to `int`:
`signedChar` says whether plain `char` is signed on the platform. -/
def toChar (signedChar : Bool) (v : Int) : Int :=
  let m := v % 256
  if signedChar && decide (128 ≤ m) then m - 256 else m

/-- The value of the expression `buffer[i]`. -/
def bufferAt (signedChar : Bool) (buffer : List Byte) (i : Nat) : Int :=
  toChar signedChar ((buffer.getD i 0).val : Int)

/-- The cast `(unsigned char)`. -/
def toUChar (v : Int) : Nat := (v % 256).toNat

/-- Printf conversion `%02x` of an unsigned value: lowercase hexadecimal,
padded with zeros on the left to at least two digits. -/
def fmt02x (v : Nat) : List Char :=
  let ds := Nat.toDigits 16 v
  List.replicate (2 - ds.length) '0' ++ ds

/-- The condition
`buffer[0] == (char)-1 && buffer[5] == (char)-1 && buffer[6] != (char)-1`. -/
def headerCheck (signedChar : Bool) (buffer : List Byte) : Bool :=
  bufferAt signedChar buffer 0 == toChar signedChar (-1) &&
  bufferAt signedChar buffer 5 == toChar signedChar (-1) &&
  bufferAt signedChar buffer 6 != toChar signedChar (-1)

/-- The construction of `mac` in `main`: `sprintf` of byte 6 with `%02x`, then
five times `sprintf` of byte `7 + i` with `-%02x` and `strcat`. -/
def buildMac (signedChar : Bool) (buffer : List Byte) : String :=
  let mac := fmt02x (toUChar (bufferAt signedChar buffer 6))
  String.mk ((List.range 5).foldl
    (fun mac i =>
      let part := '-' :: fmt02x (toUChar (bufferAt signedChar buffer (7 + i)))
      mac ++ part)
    mac)

/-- Result of one iteration of the `while (1)` loop. -/
structure Outcome where
  state : LoopState
  events : List Event
  exited : Bool
deriving DecidableEq

/-- Source: the body of the `while (1)` loop of `main`.  `exited` is set when
the iteration ends in `exitp`, otherwise the loop goes on to the next
`recvfrom`. -/
def mainLoopBody (signedChar : Bool) (reg : Registry) (st : LoopState)
    (inc : Incoming) (sendRes : Nat → Int) : Outcome :=
  let r := recvfrom st inc
  let res := r.1
  let st1 := r.2
  if res == (PSIZE : Int) then
    if headerCheck signedChar st1.buffer then
      let mac := buildMac signedChar st1.buffer
      let ev := LogInfo ("Received a magic packet for MAC " ++ mac ++ " from " ++
        inet_ntoa st1.sender.sin_addr ++ ":" ++ toString (ntohs st1.sender.sin_port) ++ " \n")
      if !IsLocalIp reg st1.sender.sin_addr then
        { state := st1
          events := ev :: LogInfo "   forwarding to...\n" :: ForwardWol reg st1.buffer sendRes
          exited := false }
      else
        { state := st1, events := [ev], exited := false }
    else
      { state := st1, events := [], exited := false }
  else if res == -1 then
    { state := st1, events := [Event.exitp "Can't receive data..."], exited := true }
  else
    { state := st1, events := [], exited := false }

/-! ## Observations, specification-side definitions and test data -/

/-- The two nested conditions of the receive loop that guard the handling of a
magic packet, evaluated on what `recvfrom` leaves behind for the datagram
`bytes`: `res == PSIZE` and then the header test on `buffer`. -/
def accepts (signedChar : Bool) (st : LoopState) (bytes : List Byte) (src : sockaddr_in) : Bool :=
  let r := recvfrom st (Incoming.datagram bytes src)
  r.1 == (PSIZE : Int) && headerCheck signedChar r.2.buffer

/-- Specification of the parser: a datagram is taken for a magic packet when it
has exactly 102 bytes, bytes 0 and 5 are 0xFF and byte 6 is not 0xFF. -/
def isMagic (bytes : List Byte) : Prop :=
  bytes.length = 102 ∧ bytes.getD 0 0 = 255 ∧ bytes.getD 5 0 = 255 ∧ bytes.getD 6 0 ≠ 255

instance (bytes : List Byte) : Decidable (isMagic bytes) := by
  unfold isMagic; infer_instance

/-- Specification: the lowercase hexadecimal digit of a value below 16. -/
def hexDigit (n : Nat) : Char := "0123456789abcdef".toList.getD n '0'

/-- Specification: an octet as two lowercase hexadecimal digits, zero-padded. -/
def hexOctet (b : Byte) : String := String.mk [hexDigit (b.val / 16), hexDigit (b.val % 16)]

/-- Specification: the six bytes at offsets 6..11 as hexadecimal octets joined
by single hyphens. -/
def macText (bytes : List Byte) : String :=
  String.intercalate "-" ((List.range 6).map fun k => hexOctet (bytes.getD (6 + k) 0))

/-- Specification: the log line that reports the MAC and the sender as
`ip:port`. -/
def receivedLine (bytes : List Byte) (src : sockaddr_in) : String :=
  "Received a magic packet for MAC " ++ macText bytes ++ " from " ++
    inet_ntoa src.sin_addr ++ ":" ++ toString (src.sin_port % 65536) ++ " \n"

/-- The `sendto` calls of a trace, in order: data pointer contents, length
argument and destination. -/
def sendsOf : List Event → List (List Byte × Nat × sockaddr_in)
  | [] => []
  | Event.sendto data len dest :: es => (data, len, dest) :: sendsOf es
  | Event.log _ :: es => sendsOf es
  | Event.exitp _ :: es => sendsOf es

/-- The log lines of a trace, in order. -/
def logsOf : List Event → List String
  | [] => []
  | Event.log line :: es => line :: logsOf es
  | Event.sendto _ _ _ :: es => logsOf es
  | Event.exitp _ :: es => logsOf es

/-- Address `addr` has the network of interface `i` under the netmask of that
interface. -/
def sameNet (reg : Registry) (addr : in_addr) (i : Nat) : Prop :=
  addr.s_addr &&& (reg.Netmask i).s_addr = (reg.LocalAddr i).s_addr &&& (reg.Netmask i).s_addr

/-- The address `a.b.c.d`. -/
def ip4 (a b c d : Nat) : in_addr := ⟨a * 16777216 + b * 65536 + c * 256 + d⟩

/-- The canonical magic packet for a MAC: six bytes 0xFF, then the six MAC
bytes sixteen times. -/
def magicPacket (m0 m1 m2 m3 m4 m5 : Byte) : List Byte :=
  List.replicate 6 255 ++ (List.replicate 16 [m0, m1, m2, m3, m4, m5]).flatten

/-- The registry holding the given (address, netmask, broadcast) triples in
order, the remaining slots zero. -/
def registryOf (ifs : List (in_addr × in_addr × in_addr)) : Registry :=
  { LocalAddr := fun i => (ifs.getD i (⟨0⟩, ⟨0⟩, ⟨0⟩)).1
    Netmask := fun i => (ifs.getD i (⟨0⟩, ⟨0⟩, ⟨0⟩)).2.1
    Broadcast := fun i => (ifs.getD i (⟨0⟩, ⟨0⟩, ⟨0⟩)).2.2
    AddrCount := ifs.length }

/-- Registry of the end-to-end scenario: 192.168.1.5 / 255.255.255.0, broadcast
192.168.1.255. -/
def regEth0 : Registry :=
  registryOf [(ip4 192 168 1 5, ip4 255 255 255 0, ip4 192 168 1 255)]

/-- Registry with the one interface 192.168.1.10 / 255.255.255.0. -/
def regLan10 : Registry :=
  registryOf [(ip4 192 168 1 10, ip4 255 255 255 0, ip4 192 168 1 255)]

/-- Registry with two interfaces whose broadcast addresses differ. -/
def regTwo : Registry :=
  registryOf [(ip4 192 168 1 5, ip4 255 255 255 0, ip4 192 168 1 255),
              (ip4 10 8 0 1, ip4 255 255 0 0, ip4 10 8 255 255)]

/-- A loop state with an all-zero buffer and sender. -/
def LoopState.zeroed : LoopState := ⟨List.replicate 256 0, ⟨0, 0, ⟨0⟩⟩⟩

/-- The bytes a `sendto` call puts on the wire: the first `len` bytes at
`data`. -/
def wireOf (s : List Byte × Nat × sockaddr_in) : List Byte := s.1.take s.2.1

/-- Eleven IPv4 interfaces 10.0.k.1 / 255.255.255.0, up, broadcast capable, not
loopback. -/
def elevenIfs : List ifaddrs :=
  (List.range 11).map fun k =>
    { ifa_flags := 0x1043
      ifa_addr := some ⟨AF_INET, 0, ip4 10 0 k 1⟩
      ifa_netmask := ⟨AF_INET, 0, ip4 255 255 255 0⟩
      ifa_broadaddr := ⟨AF_INET, 0, ip4 10 0 k 255⟩ }

/-- A point-to-point interface reported with netmask 0.0.0.0. -/
def tunIf : ifaddrs :=
  { ifa_flags := 0x10D1
    ifa_addr := some ⟨AF_INET, 0, ip4 10 8 0 6⟩
    ifa_netmask := ⟨AF_INET, 0, ip4 0 0 0 0⟩
    ifa_broadaddr := ⟨AF_INET, 0, ip4 10 8 0 5⟩ }

/-- The magic packet for MAC 00-11-22-33-44-55. -/
def scenarioPacket : List Byte := magicPacket 0x00 0x11 0x22 0x33 0x44 0x55

/-- The interface 192.168.1.5 / 255.255.255.0 as `getifaddrs` reports it. -/
def ethIf : ifaddrs :=
  { ifa_flags := 0x1043
    ifa_addr := some ⟨AF_INET, 0, ip4 192 168 1 5⟩
    ifa_netmask := ⟨AF_INET, 0, ip4 255 255 255 0⟩
    ifa_broadaddr := ⟨AF_INET, 0, ip4 192 168 1 255⟩ }

/-! ## Auxiliary lemmas and the claims -/

theorem toUChar_toChar (sc : Bool) (b : Byte) : toUChar (toChar sc (b.val : Int)) = b.val := by
  have hb := b.isLt
  cases sc <;> simp only [toUChar, toChar, Bool.false_and, Bool.true_and]
  · omega
  · split <;> omega

theorem toChar_eq_minus_one (sc : Bool) (b : Byte) :
    (toChar sc (b.val : Int) = toChar sc (-1)) ↔ b = 255 := by
  have hb := b.isLt
  rw [Fin.ext_iff]
  cases sc <;> simp [toChar]
  · omega
  · split <;> omega

set_option maxRecDepth 100000 in
theorem fmt02x_byte : ∀ b : Byte, fmt02x b.val = [hexDigit (b.val / 16), hexDigit (b.val % 16)] := by
  decide

theorem recvfrom_res (st : LoopState) (bytes : List Byte) (src : sockaddr_in) :
    (recvfrom st (Incoming.datagram bytes src)).1 = ((min bytes.length BSIZE : Nat) : Int) := rfl

theorem recvfrom_res_eq_PSIZE (st : LoopState) (bytes : List Byte) (src : sockaddr_in) :
    (recvfrom st (Incoming.datagram bytes src)).1 = (PSIZE : Int) ↔ bytes.length = 102 := by
  rw [recvfrom_res]
  simp only [PSIZE, BSIZE]
  omega

theorem recvfrom_buffer (st : LoopState) (bytes : List Byte) (src : sockaddr_in)
    (h : bytes.length = 102) :
    (recvfrom st (Incoming.datagram bytes src)).2.buffer = bytes ++ st.buffer.drop 102 := by
  simp [recvfrom, h, BSIZE, List.take_of_length_le]

theorem getD_append_of_lt (l r : List Byte) (i : Nat) (h : i < l.length) :
    (l ++ r).getD i 0 = l.getD i 0 := by
  simp [List.getD_eq_getElem?_getD, List.getElem?_append_left h]

theorem headerCheck_iff (sc : Bool) (buf : List Byte) :
    headerCheck sc buf = true ↔
      buf.getD 0 0 = 255 ∧ buf.getD 5 0 = 255 ∧ buf.getD 6 0 ≠ 255 := by
  simp only [headerCheck, bufferAt, Bool.and_eq_true, beq_iff_eq, bne_iff_ne, ne_eq,
    toChar_eq_minus_one, and_assoc]

/-- The loop conditions hold exactly for the datagrams the parser specification
takes for magic packets. -/
theorem accepts_iff_isMagic (sc : Bool) (st : LoopState) (bytes : List Byte) (src : sockaddr_in) :
    accepts sc st bytes src = true ↔ isMagic bytes := by
  unfold accepts isMagic
  simp only [Bool.and_eq_true, beq_iff_eq, recvfrom_res_eq_PSIZE, headerCheck_iff]
  constructor
  · rintro ⟨hlen, h⟩
    rw [recvfrom_buffer st bytes src hlen] at h
    rw [getD_append_of_lt _ _ 0 (by omega), getD_append_of_lt _ _ 5 (by omega),
      getD_append_of_lt _ _ 6 (by omega)] at h
    exact ⟨hlen, h⟩
  · rintro ⟨hlen, h⟩
    refine ⟨hlen, ?_⟩
    rw [recvfrom_buffer st bytes src hlen]
    rw [getD_append_of_lt _ _ 0 (by omega), getD_append_of_lt _ _ 5 (by omega),
      getD_append_of_lt _ _ 6 (by omega)]
    exact h

/-- The `sprintf`/`strcat` construction yields the specified MAC text. -/
theorem buildMac_eq (sc : Bool) (buf : List Byte) :
    buildMac sc buf = macText buf := by
  simp only [buildMac, bufferAt, toUChar_toChar, fmt02x_byte, macText]
  rfl

theorem macText_length (buf : List Byte) : (macText buf).length = 17 := by
  rfl

theorem macText_append (bytes rest : List Byte) (h : bytes.length = 102) :
    macText (bytes ++ rest) = macText bytes := by
  simp only [macText, List.range, List.range.loop, List.map]
  rw [getD_append_of_lt _ _ _ (by omega), getD_append_of_lt _ _ _ (by omega),
    getD_append_of_lt _ _ _ (by omega), getD_append_of_lt _ _ _ (by omega),
    getD_append_of_lt _ _ _ (by omega), getD_append_of_lt _ _ _ (by omega)]

/-- The loop body on a datagram, in closed form. -/
theorem mainLoopBody_datagram (sc : Bool) (reg : Registry) (st : LoopState)
    (bytes : List Byte) (src : sockaddr_in) (sendRes : Nat → Int) :
    mainLoopBody sc reg st (Incoming.datagram bytes src) sendRes =
      if isMagic bytes then
        { state := ⟨bytes ++ st.buffer.drop 102, src⟩
          events := Event.log (receivedLine bytes src) ::
            (if IsLocalIp reg src.sin_addr then []
             else Event.log "   forwarding to...\n" ::
               ForwardWol reg (bytes ++ st.buffer.drop 102) sendRes)
          exited := false }
      else
        { state := (recvfrom st (Incoming.datagram bytes src)).2
          events := []
          exited := false } := by
  have hacc := accepts_iff_isMagic sc st bytes src
  unfold accepts at hacc
  simp only [Bool.and_eq_true, beq_iff_eq] at hacc
  by_cases hm : isMagic bytes
  · have h := hacc.mpr hm
    have hlen : bytes.length = 102 := hm.1
    have hst : (recvfrom st (Incoming.datagram bytes src)).2 = ⟨bytes ++ st.buffer.drop 102, src⟩ := by
      simp [recvfrom, hlen, BSIZE, List.take_of_length_le]
    have h2 := h.2
    rw [hst] at h2
    simp only [mainLoopBody, h.1, h2, beq_self_eq_true, if_true, hm, buildMac_eq, hst, LogInfo,
      receivedLine, ntohs, macText_append _ _ hlen]
    cases IsLocalIp reg src.sin_addr <;> simp
  · simp only [hm, if_false]
    unfold mainLoopBody
    by_cases hres : (recvfrom st (Incoming.datagram bytes src)).1 = (PSIZE : Int)
    · have hh : headerCheck sc (recvfrom st (Incoming.datagram bytes src)).2.buffer = false := by
        cases hc : headerCheck sc (recvfrom st (Incoming.datagram bytes src)).2.buffer
        · rfl
        · exact absurd (hacc.mp ⟨hres, hc⟩) hm
      simp [hres, hh]
    · have hne : (recvfrom st (Incoming.datagram bytes src)).1 ≠ -1 := by
        rw [recvfrom_res]; omega
      simp [hres, hne]

theorem sendsOf_append (xs ys : List Event) : sendsOf (xs ++ ys) = sendsOf xs ++ sendsOf ys := by
  induction xs with
  | nil => rfl
  | cons e es ih => cases e <;> simp [sendsOf, ih]

theorem logsOf_append (xs ys : List Event) : logsOf (xs ++ ys) = logsOf xs ++ logsOf ys := by
  induction xs with
  | nil => rfl
  | cons e es ih => cases e <;> simp [logsOf, ih]

/-- The loop of `IsLocalIp` finds an index in the range it still has to
visit. -/
theorem IsLocalIp_loop_iff (reg : Registry) (addr : in_addr) (n i : Nat) :
    IsLocalIp.loop reg addr n i = true ↔ ∃ j, i ≤ j ∧ j < i + n ∧ sameNet reg addr j := by
  induction n generalizing i with
  | zero =>
    simp only [IsLocalIp.loop, Bool.false_eq_true, false_iff]
    rintro ⟨j, h1, h2, _⟩
    omega
  | succ n ih =>
    simp only [IsLocalIp.loop]
    by_cases h : (reg.LocalAddr i).s_addr &&& (reg.Netmask i).s_addr
        = addr.s_addr &&& (reg.Netmask i).s_addr
    · simp only [h, beq_self_eq_true, if_true, true_iff]
      exact ⟨i, le_refl i, by omega, h.symm⟩
    · have hb : ((reg.LocalAddr i).s_addr &&& (reg.Netmask i).s_addr
          == addr.s_addr &&& (reg.Netmask i).s_addr) = false := by
        simpa using h
      simp only [hb, Bool.false_eq_true, if_false, ih]
      constructor
      · rintro ⟨j, h1, h2, h3⟩
        exact ⟨j, by omega, by omega, h3⟩
      · rintro ⟨j, h1, h2, h3⟩
        have hji : j ≠ i := by
          rintro rfl
          exact h h3.symm
        exact ⟨j, by omega, by omega, h3⟩

theorem IsLocalIp_iff (reg : Registry) (addr : in_addr) :
    IsLocalIp reg addr = true ↔ ∃ i, i < reg.AddrCount ∧ sameNet reg addr i := by
  unfold IsLocalIp
  rw [IsLocalIp_loop_iff]
  constructor
  · rintro ⟨j, _, h2, h3⟩
    exact ⟨j, by omega, h3⟩
  · rintro ⟨j, h2, h3⟩
    exact ⟨j, by omega, by omega, h3⟩

theorem SendBroadcast_sends (data : List Byte) (bc : sockaddr_in) (res : Int) :
    sendsOf (SendBroadcast data bc res) = [(data, 102, bc)] := by
  unfold SendBroadcast
  split <;> rfl

theorem SendBroadcast_logs (data : List Byte) (bc : sockaddr_in) (res : Int) :
    logsOf (SendBroadcast data bc res) =
      if res = 102 then ["      " ++ inet_ntoa bc.sin_addr ++ "\n"] else [] := by
  unfold SendBroadcast
  by_cases h : res = 102
  · simp [h, PSIZE, logsOf, LogInfo]
  · simp [h, PSIZE, logsOf]

theorem ForwardWol_loop_sends (reg : Registry) (data : List Byte) (bc : sockaddr_in)
    (sendRes : Nat → Int) (n i : Nat) :
    sendsOf (ForwardWol.loop reg data bc sendRes n i) =
      (List.range' i n).map
        (fun j => (data, 102, (⟨bc.sin_family, bc.sin_port, reg.Broadcast j⟩ : sockaddr_in))) := by
  induction n generalizing i bc with
  | zero => rfl
  | succ n ih =>
    simp only [ForwardWol.loop, sendsOf_append, ih, List.range'_succ, List.map_cons,
      SendBroadcast_sends, List.singleton_append]

theorem ForwardWol_loop_logs (reg : Registry) (data : List Byte) (bc : sockaddr_in)
    (sendRes : Nat → Int) (n i : Nat) :
    logsOf (ForwardWol.loop reg data bc sendRes n i) =
      ((List.range' i n).filter (fun j => sendRes j == 102)).map
        (fun j => "      " ++ inet_ntoa (reg.Broadcast j) ++ "\n") := by
  induction n generalizing i bc with
  | zero => rfl
  | succ n ih =>
    simp only [ForwardWol.loop, logsOf_append, ih, List.range'_succ, List.filter_cons,
      SendBroadcast_logs]
    by_cases hres : sendRes i = 102 <;> simp [hres]

/-- The `while` loop of `GetInterfaces` appends the qualifying entries, in
order, from the current `AddrCount` on and leaves the slots below it alone. -/
theorem GetInterfaces_foldl (l : List ifaddrs) (acc : Registry × List Event) :
    (l.foldl GetInterfaces.visit acc).1.AddrCount
        = acc.1.AddrCount + (l.filter GetInterfaces.qualifies).length ∧
    (∀ k p, (l.filter GetInterfaces.qualifies)[k]? = some p →
      (l.foldl GetInterfaces.visit acc).1.LocalAddr (acc.1.AddrCount + k) = GetInterfaces.addrOf p ∧
      (l.foldl GetInterfaces.visit acc).1.Netmask (acc.1.AddrCount + k) = p.ifa_netmask.sin_addr ∧
      (l.foldl GetInterfaces.visit acc).1.Broadcast (acc.1.AddrCount + k) = p.ifa_broadaddr.sin_addr) ∧
    (∀ j, j < acc.1.AddrCount →
      (l.foldl GetInterfaces.visit acc).1.LocalAddr j = acc.1.LocalAddr j ∧
      (l.foldl GetInterfaces.visit acc).1.Netmask j = acc.1.Netmask j ∧
      (l.foldl GetInterfaces.visit acc).1.Broadcast j = acc.1.Broadcast j) := by
  induction l generalizing acc with
  | nil => simp
  | cons q l ih =>
    by_cases hq : GetInterfaces.qualifies q = true
    · have hv : GetInterfaces.visit acc q =
          (⟨store acc.1.LocalAddr acc.1.AddrCount (GetInterfaces.addrOf q),
            store acc.1.Broadcast acc.1.AddrCount q.ifa_broadaddr.sin_addr,
            store acc.1.Netmask acc.1.AddrCount q.ifa_netmask.sin_addr,
            acc.1.AddrCount + 1⟩,
           acc.2 ++ [DumpInterfaceInfo
             ⟨store acc.1.LocalAddr acc.1.AddrCount (GetInterfaces.addrOf q),
              store acc.1.Broadcast acc.1.AddrCount q.ifa_broadaddr.sin_addr,
              store acc.1.Netmask acc.1.AddrCount q.ifa_netmask.sin_addr,
              acc.1.AddrCount⟩ acc.1.AddrCount]) := by
        simp [GetInterfaces.visit, hq]
      obtain ⟨h1, h2, h3⟩ := ih (GetInterfaces.visit acc q)
      rw [hv] at h1 h2 h3
      simp only [List.foldl_cons, List.filter_cons, hq, if_true, List.length_cons, hv]
      simp only at h1 h2 h3
      refine ⟨by omega, ?_, ?_⟩
      · intro k p hk
        cases k with
        | zero =>
          simp only [List.getElem?_cons_zero, Option.some.injEq] at hk
          subst hk
          have := h3 acc.1.AddrCount (by omega)
          simpa [store] using this
        | succ k =>
          simp only [List.getElem?_cons_succ] at hk
          have := h2 k p hk
          rw [show acc.1.AddrCount + (k + 1) = acc.1.AddrCount + 1 + k by omega]
          exact this
      · intro j hj
        have := h3 j (by omega)
        have hne : j ≠ acc.1.AddrCount := by omega
        simpa [store, hne] using this
    · have hq2 : GetInterfaces.qualifies q = false := by simpa using hq
      have hv : GetInterfaces.visit acc q = acc := by
        simp [GetInterfaces.visit, hq2]
      simp only [List.foldl_cons, List.filter_cons, hq2, hv, Bool.false_eq_true, if_false]
      exact ih acc

/-- After `GetInterfaces`, `AddrCount` is the number of qualifying entries. -/
theorem GetInterfaces_count (reg : Registry) (l : List ifaddrs) :
    (GetInterfaces reg (some l)).1.AddrCount = (l.filter GetInterfaces.qualifies).length := by
  have h := (GetInterfaces_foldl l (⟨reg.LocalAddr, reg.Broadcast, reg.Netmask, 0⟩, [])).1
  simpa [GetInterfaces] using h

/-- After `GetInterfaces`, slot `k` holds the qualifying entry number `k`. -/
theorem GetInterfaces_entry (reg : Registry) (l : List ifaddrs) (k : Nat) (p : ifaddrs)
    (hk : (l.filter GetInterfaces.qualifies)[k]? = some p) :
    (GetInterfaces reg (some l)).1.LocalAddr k = GetInterfaces.addrOf p ∧
    (GetInterfaces reg (some l)).1.Netmask k = p.ifa_netmask.sin_addr ∧
    (GetInterfaces reg (some l)).1.Broadcast k = p.ifa_broadaddr.sin_addr := by
  have h := (GetInterfaces_foldl l (⟨reg.LocalAddr, reg.Broadcast, reg.Netmask, 0⟩, [])).2.1 k p hk
  simpa [GetInterfaces] using h

theorem ForwardWol_sends_eq (reg : Registry) (data : List Byte) (sendRes : Nat → Int) :
    sendsOf (ForwardWol reg data sendRes) =
      if reg.AddrCount = 0 then [(data, 102, ⟨AF_INET, 9, ⟨4294967295⟩⟩)]
      else (List.range reg.AddrCount).map
        (fun i => (data, 102, (⟨AF_INET, 9, reg.Broadcast i⟩ : sockaddr_in))) := by
  unfold ForwardWol
  by_cases h : reg.AddrCount = 0
  · simp [h, SendBroadcast_sends, htons, htonl, PORT, INADDR_BROADCAST]
  · simp [h, ForwardWol_loop_sends, List.range_eq_range', htons, PORT]

theorem ForwardWol_logs_eq (reg : Registry) (data : List Byte) (sendRes : Nat → Int) :
    logsOf (ForwardWol reg data sendRes) =
      if reg.AddrCount = 0 then
        (if sendRes 0 = 102 then ["      255.255.255.255\n"] else [])
      else ((List.range reg.AddrCount).filter (fun i => sendRes i == 102)).map
        (fun i => "      " ++ inet_ntoa (reg.Broadcast i) ++ "\n") := by
  unfold ForwardWol
  by_cases h : reg.AddrCount = 0
  · have hx : inet_ntoa ⟨htonl INADDR_BROADCAST⟩ = "255.255.255.255" := by decide
    simp only [h, beq_self_eq_true, if_true, SendBroadcast_logs, hx]
    rfl
  · simp [h, ForwardWol_loop_logs, List.range_eq_range']

theorem isMagic_magicPacket (m0 m1 m2 m3 m4 m5 : Byte) :
    isMagic (magicPacket m0 m1 m2 m3 m4 m5) ↔ m0 ≠ 255 := by
  unfold isMagic
  have h1 : (magicPacket m0 m1 m2 m3 m4 m5).length = 102 := rfl
  have h2 : (magicPacket m0 m1 m2 m3 m4 m5).getD 0 0 = 255 := rfl
  have h3 : (magicPacket m0 m1 m2 m3 m4 m5).getD 5 0 = 255 := rfl
  have h4 : (magicPacket m0 m1 m2 m3 m4 m5).getD 6 0 = m0 := rfl
  rw [h1, h2, h3, h4]
  simp

theorem take_append_of_length (bytes rest : List Byte) (h : bytes.length = 102) :
    (bytes ++ rest).take 102 = bytes := by
  rw [← h]; simp

/-- C1: the magic-packet check of the receive loop accepts a datagram if and
only if its length is exactly 102, byte 0 and byte 5 are 0xFF and byte 6 is not
0xFF; the iteration has no effect at all exactly when the datagram is rejected;
and the decision is the same for any two datagrams that agree on the length and
on bytes 0, 5 and 6, whatever the other bytes, the stale buffer contents, the
sender and the signedness of `char`. -/
theorem magic_check_accepts_iff (signedChar : Bool) (reg : Registry) (st : LoopState)
    (bytes : List Byte) (src : sockaddr_in) (sendRes : Nat → Int) :
    (accepts signedChar st bytes src = true ↔
      bytes.length = 102 ∧ bytes.getD 0 0 = 255 ∧ bytes.getD 5 0 = 255 ∧ bytes.getD 6 0 ≠ 255) ∧
    ((mainLoopBody signedChar reg st (Incoming.datagram bytes src) sendRes).events = [] ↔
      accepts signedChar st bytes src = false) ∧
    (∀ (signedChar2 : Bool) (st2 : LoopState) (bytes2 : List Byte) (src2 : sockaddr_in),
      bytes2.length = bytes.length → bytes2.getD 0 0 = bytes.getD 0 0 →
      bytes2.getD 5 0 = bytes.getD 5 0 → bytes2.getD 6 0 = bytes.getD 6 0 →
      accepts signedChar2 st2 bytes2 src2 = accepts signedChar st bytes src) := by
  refine ⟨accepts_iff_isMagic signedChar st bytes src, ?_, ?_⟩
  · rw [mainLoopBody_datagram]
    have h := accepts_iff_isMagic signedChar st bytes src
    by_cases hm : isMagic bytes
    · simp [hm, h.mpr hm]
    · have hf : accepts signedChar st bytes src = false := by
        cases hc : accepts signedChar st bytes src
        · rfl
        · exact absurd (h.mp hc) hm
      simp [hm, hf]
  · intro sc2 st2 bytes2 src2 hl h0 h5 h6
    have h := accepts_iff_isMagic signedChar st bytes src
    have h2 := accepts_iff_isMagic sc2 st2 bytes2 src2
    have hiff : isMagic bytes2 ↔ isMagic bytes := by
      unfold isMagic
      rw [hl, h0, h5, h6]
    rw [Bool.eq_iff_iff, h, h2, hiff]

/-- C2: for every accepted datagram the MAC string built for logging is the six
bytes at offsets 6..11, each as two lowercase hexadecimal digits (zero-padded,
value 0..255), in order, joined by single hyphens, and it has exactly 17
characters. -/
theorem accepted_mac_format (signedChar : Bool) (st : LoopState) (bytes : List Byte)
    (src : sockaddr_in) (h : accepts signedChar st bytes src = true) :
    buildMac signedChar (recvfrom st (Incoming.datagram bytes src)).2.buffer =
      String.intercalate "-" ((List.range 6).map fun k => hexOctet (bytes.getD (6 + k) 0)) ∧
    (buildMac signedChar (recvfrom st (Incoming.datagram bytes src)).2.buffer).length = 17 := by
  have hm := (accepts_iff_isMagic signedChar st bytes src).mp h
  rw [buildMac_eq, recvfrom_buffer st bytes src hm.1, macText_append _ _ hm.1]
  exact ⟨rfl, macText_length bytes⟩

/-- Witness for C2: the packet FF x 6 followed by AA:BB:CC:DD:EE:FF sixteen times
is accepted and yields `aa-bb-cc-dd-ee-ff`. -/
theorem accepted_mac_format_witness :
    accepts true LoopState.zeroed (magicPacket 0xAA 0xBB 0xCC 0xDD 0xEE 0xFF)
        ⟨AF_INET, 40000, ip4 203 0 113 7⟩ = true ∧
    buildMac true (recvfrom LoopState.zeroed (Incoming.datagram
        (magicPacket 0xAA 0xBB 0xCC 0xDD 0xEE 0xFF) ⟨AF_INET, 40000, ip4 203 0 113 7⟩)).2.buffer
      = "aa-bb-cc-dd-ee-ff" :=
  ⟨by decide, (accepted_mac_format true LoopState.zeroed
      (magicPacket 0xAA 0xBB 0xCC 0xDD 0xEE 0xFF) ⟨AF_INET, 40000, ip4 203 0 113 7⟩
      (by decide)).1.trans (by decide)⟩

theorem IsLocalIp_of_zero_netmask (reg : Registry) (i : Nat) (hi : i < reg.AddrCount)
    (hz : (reg.Netmask i).s_addr = 0) (a : in_addr) : IsLocalIp reg a = true := by
  rw [IsLocalIp_iff]
  refine ⟨i, hi, ?_⟩
  unfold sameNet
  rw [hz]
  simp

/-- C3: `IsLocalIp` returns true if and only if some registered index below
`AddrCount` has the same network as the address under its own netmask; with
an empty registry it returns false; for the registry 192.168.1.10 /
255.255.255.0 the address 10.0.0.5 is not local and 192.168.1.200, which is not
the interface address, is local. -/
theorem IsLocalIp_iff_same_network (reg : Registry) (a : in_addr) :
    (IsLocalIp reg a = true ↔
      ∃ i, i < reg.AddrCount ∧
        a.s_addr &&& (reg.Netmask i).s_addr = (reg.LocalAddr i).s_addr &&& (reg.Netmask i).s_addr) ∧
    (reg.AddrCount = 0 → IsLocalIp reg a = false) ∧
    IsLocalIp regLan10 (ip4 10 0 0 5) = false ∧
    IsLocalIp regLan10 (ip4 192 168 1 200) = true ∧
    ip4 192 168 1 200 ≠ regLan10.LocalAddr 0 := by
  refine ⟨IsLocalIp_iff reg a, ?_, by decide, by decide, by decide⟩
  intro h0
  unfold IsLocalIp
  rw [h0]
  rfl

/-- C4: `IsLocalIp` is reflexive over the registry: the address of every
registered index is local, whatever the netmasks and the other entries. -/
theorem IsLocalIp_registered (reg : Registry) (i : Nat) (h : i < reg.AddrCount) :
    IsLocalIp reg (reg.LocalAddr i) = true := by
  rw [IsLocalIp_iff]
  exact ⟨i, h, rfl⟩

/-- Witness for C4: the second interface of a two-interface registry. -/
theorem IsLocalIp_registered_witness :
    1 < regTwo.AddrCount ∧ IsLocalIp regTwo (regTwo.LocalAddr 1) = true :=
  ⟨by decide, IsLocalIp_registered regTwo 1 (by decide)⟩

/-- C5: the `sendto` calls of `ForwardWol`, in order, are: one call to
255.255.255.255 when `AddrCount` is 0, otherwise one call per index below
`AddrCount` to `Broadcast[i]`; each has length 102 and port 9; the calls are
the same whatever the individual `sendto` calls return; two registered
interfaces with distinct broadcast addresses give exactly two calls. -/
theorem ForwardWol_send_attempts (reg : Registry) (data : List Byte) (sendRes : Nat → Int) :
    sendsOf (ForwardWol reg data sendRes) =
      (if reg.AddrCount = 0 then [(data, 102, ⟨AF_INET, 9, ip4 255 255 255 255⟩)]
       else (List.range reg.AddrCount).map
        (fun i => (data, 102, (⟨AF_INET, 9, reg.Broadcast i⟩ : sockaddr_in)))) ∧
    (∀ sendRes2 : Nat → Int,
      sendsOf (ForwardWol reg data sendRes2) = sendsOf (ForwardWol reg data sendRes)) ∧
    sendsOf (ForwardWol regTwo data sendRes) =
      [(data, 102, ⟨AF_INET, 9, ip4 192 168 1 255⟩), (data, 102, ⟨AF_INET, 9, ip4 10 8 255 255⟩)] ∧
    ip4 192 168 1 255 ≠ ip4 10 8 255 255 ∧ ntohs 9 = PORT := by
  refine ⟨ForwardWol_sends_eq reg data sendRes, ?_, ?_, by decide, by decide⟩
  · intro sendRes2
    rw [ForwardWol_sends_eq, ForwardWol_sends_eq]
  · rw [ForwardWol_sends_eq]
    rfl

/-- Counterexample to C7 as stated: a `sendto` that returns -1, or one that
writes only 50 bytes, leaves no log line. -/
theorem SendBroadcast_failure_not_logged :
    logsOf (SendBroadcast (magicPacket 0 0x11 0x22 0x33 0x44 0x55)
      ⟨AF_INET, 9, ip4 192 168 1 255⟩ (-1)) = [] ∧
    logsOf (SendBroadcast (magicPacket 0 0x11 0x22 0x33 0x44 0x55)
      ⟨AF_INET, 9, ip4 192 168 1 255⟩ 50) = [] := by
  constructor <;> rfl

/-- C7, amended: `SendBroadcast` makes one `sendto` call and emits a log line
naming the destination exactly when the call returns 102; any other return
value emits no log line.  The log lines of a fan-out are those of the
destinations whose send returned 102, and the number of `sendto` calls of the
fan-out does not depend on the return values. -/
theorem SendBroadcast_logs_success_only (reg : Registry) (data : List Byte)
    (dest : sockaddr_in) (res : Int) (sendRes : Nat → Int) :
    SendBroadcast data dest res =
      Event.sendto data 102 dest ::
        (if res = 102 then [Event.log ("      " ++ inet_ntoa dest.sin_addr ++ "\n")] else []) ∧
    logsOf (ForwardWol reg data sendRes) =
      (if reg.AddrCount = 0 then
        (if sendRes 0 = 102 then ["      255.255.255.255\n"] else [])
       else ((List.range reg.AddrCount).filter (fun i => sendRes i == 102)).map
        (fun i => "      " ++ inet_ntoa (reg.Broadcast i) ++ "\n")) ∧
    (sendsOf (ForwardWol reg data sendRes)).length =
      (if reg.AddrCount = 0 then 1 else reg.AddrCount) := by
  refine ⟨?_, ForwardWol_logs_eq reg data sendRes, ?_⟩
  · unfold SendBroadcast
    by_cases h : res = 102 <;> simp [h, PSIZE, LogInfo]
  · rw [ForwardWol_sends_eq]
    split <;> simp

/-- C8, the code at the failing input: with eleven qualifying interfaces
`GetInterfaces` ends with `AddrCount` 11, above the 10 declared slots, and it
has stored the eleventh interface at index 10 of `LocalAddr`, `Netmask` and
`Broadcast`, a slot that was zero before and lies outside the declared
arrays. -/
theorem GetInterfaces_eleven_overruns :
    (GetInterfaces Registry.initial (some elevenIfs)).1.AddrCount = 11 ∧
    ADDR_SLOTS < (GetInterfaces Registry.initial (some elevenIfs)).1.AddrCount ∧
    (GetInterfaces Registry.initial (some elevenIfs)).1.LocalAddr 10 = ip4 10 0 10 1 ∧
    (GetInterfaces Registry.initial (some elevenIfs)).1.Netmask 10 = ip4 255 255 255 0 ∧
    (GetInterfaces Registry.initial (some elevenIfs)).1.Broadcast 10 = ip4 10 0 10 255 ∧
    Registry.initial.LocalAddr 10 = ⟨0⟩ := by
  decide

theorem mainLoopBody_failure (sc : Bool) (reg : Registry) (st : LoopState)
    (sendRes : Nat → Int) :
    mainLoopBody sc reg st Incoming.failure sendRes =
      { state := st, events := [Event.exitp "Can't receive data..."], exited := true } := by
  simp [mainLoopBody, recvfrom, PSIZE]

theorem ForwardWol_regEth0 (data : List Byte) (sendRes : Nat → Int) :
    ForwardWol regEth0 data sendRes =
      Event.sendto data 102 ⟨AF_INET, 9, ip4 192 168 1 255⟩ ::
        (if sendRes 0 = 102 then [Event.log "      192.168.1.255\n"] else []) := by
  have hip : inet_ntoa (ip4 192 168 1 255) = "192.168.1.255" := by decide
  have hb : regEth0.Broadcast 0 = ip4 192 168 1 255 := rfl
  have hc : regEth0.AddrCount = 1 := rfl
  have hs : ("      " ++ "192.168.1.255" ++ "\n" : String) = "      192.168.1.255\n" := by decide
  simp only [ForwardWol, hc, ForwardWol.loop, SendBroadcast, hb, hip, LogInfo, hs, htons, PORT,
    PSIZE, List.append_nil]
  by_cases h : sendRes 0 = 102 <;> simp [h]

/-- C6: one iteration of the receive loop on a datagram never exits; its events
are none when the datagram is not a magic packet, the log line reporting MAC and
sender alone when the sender is local, and otherwise that log line first, then
the forwarding notice and the `ForwardWol` fan-out on the received buffer; every
outbound datagram carries the received 102 bytes.  In the scenario registry the
packet for 00-11-22-33-44-55 from 203.0.113.7:54321 gives one `sendto` of 102
bytes to 192.168.1.255 port 9 with the original payload, the same packet from
192.168.1.50 gives the log line only, and a 102-byte datagram starting with
0x00 gives nothing. -/
theorem main_loop_iteration (signedChar : Bool) (reg : Registry) (st : LoopState)
    (bytes : List Byte) (src : sockaddr_in) (sendRes : Nat → Int) :
    (mainLoopBody signedChar reg st (Incoming.datagram bytes src) sendRes).exited = false ∧
    (mainLoopBody signedChar reg st (Incoming.datagram bytes src) sendRes).events =
      (if isMagic bytes then
        Event.log (receivedLine bytes src) ::
          (if IsLocalIp reg src.sin_addr = true then []
           else Event.log "   forwarding to...\n" ::
             ForwardWol reg (bytes ++ st.buffer.drop 102) sendRes)
       else []) ∧
    (sendsOf (mainLoopBody signedChar reg st (Incoming.datagram bytes src) sendRes).events).map
        wireOf =
      (if isMagic bytes ∧ IsLocalIp reg src.sin_addr = false then
        List.replicate (if reg.AddrCount = 0 then 1 else reg.AddrCount) bytes
       else []) ∧
    (mainLoopBody signedChar regEth0 st
        (Incoming.datagram scenarioPacket ⟨AF_INET, 54321, ip4 203 0 113 7⟩) sendRes).events =
      [Event.log "Received a magic packet for MAC 00-11-22-33-44-55 from 203.0.113.7:54321 \n",
       Event.log "   forwarding to...\n",
       Event.sendto (scenarioPacket ++ st.buffer.drop 102) 102 ⟨AF_INET, 9, ip4 192 168 1 255⟩] ++
      (if sendRes 0 = 102 then [Event.log "      192.168.1.255\n"] else []) ∧
    (scenarioPacket ++ st.buffer.drop 102).take 102 = scenarioPacket ∧
    (mainLoopBody signedChar regEth0 st
        (Incoming.datagram scenarioPacket ⟨AF_INET, 54321, ip4 192 168 1 50⟩) sendRes).events =
      [Event.log "Received a magic packet for MAC 00-11-22-33-44-55 from 192.168.1.50:54321 \n"] ∧
    (∀ rest : List Byte, rest.length = 101 →
      (mainLoopBody signedChar regEth0 st (Incoming.datagram (0 :: rest) src) sendRes).events
        = []) := by
  refine ⟨?_, ?_, ?_, ?_, ?_, ?_, ?_⟩
  · rw [mainLoopBody_datagram]
    split <;> rfl
  · rw [mainLoopBody_datagram]
    by_cases hm : isMagic bytes
    · simp only [hm, if_true]
    · simp only [hm, if_false]
  · rw [mainLoopBody_datagram]
    by_cases hm : isMagic bytes
    · cases hl : IsLocalIp reg src.sin_addr
      · simp only [hm, if_true, hl, Bool.false_eq_true, if_false, sendsOf, ForwardWol_sends_eq,
          and_self]
        by_cases h0 : reg.AddrCount = 0
        · simp [h0, wireOf, take_append_of_length _ _ hm.1]
        · simp only [h0, if_false, List.map_map]
          rw [List.eq_replicate_iff]
          refine ⟨by simp, ?_⟩
          intro b hb
          simp only [List.mem_map, List.mem_range, Function.comp] at hb
          obtain ⟨i, _, hi⟩ := hb
          rw [← hi]
          exact take_append_of_length _ _ hm.1
      · simp [hm, hl, sendsOf]
    · simp [hm, sendsOf]
  · rw [mainLoopBody_datagram]
    have hm : isMagic scenarioPacket := by decide
    have hl : IsLocalIp regEth0 (ip4 203 0 113 7) = false := by decide
    have hr : receivedLine scenarioPacket ⟨AF_INET, 54321, ip4 203 0 113 7⟩ =
        "Received a magic packet for MAC 00-11-22-33-44-55 from 203.0.113.7:54321 \n" := by
      decide
    simp only [hm, if_true, hl, Bool.false_eq_true, if_false, hr, ForwardWol_regEth0]
    rfl
  · exact take_append_of_length _ _ rfl
  · rw [mainLoopBody_datagram]
    have hm : isMagic scenarioPacket := by decide
    have hl : IsLocalIp regEth0 (ip4 192 168 1 50) = true := by decide
    have hr : receivedLine scenarioPacket ⟨AF_INET, 54321, ip4 192 168 1 50⟩ =
        "Received a magic packet for MAC 00-11-22-33-44-55 from 192.168.1.50:54321 \n" := by
      decide
    simp only [hm, if_true, hl, hr]
  · intro rest _
    rw [mainLoopBody_datagram]
    have hm : ¬ isMagic (0 :: rest) := by
      rintro ⟨_, h0, _⟩
      simp at h0
    simp only [hm, if_false]

/-- C9: a canonical magic packet is accepted if and only if the first octet of
its MAC is not 0xFF; when it is 0xFF the iteration has no event at all (no log
line, no relay), for every registry and sender, as for the MACs
ff-ff-ff-ff-ff-ff and ff-11-22-33-44-55. -/
theorem canonical_packet_first_octet (signedChar : Bool) (reg : Registry) (st : LoopState)
    (m0 m1 m2 m3 m4 m5 : Byte) (src : sockaddr_in) (sendRes : Nat → Int) :
    (accepts signedChar st (magicPacket m0 m1 m2 m3 m4 m5) src = true ↔ m0 ≠ 255) ∧
    ((mainLoopBody signedChar reg st
        (Incoming.datagram (magicPacket m0 m1 m2 m3 m4 m5) src) sendRes).events = [] ↔
      m0 = 255) ∧
    (mainLoopBody signedChar reg st
        (Incoming.datagram (magicPacket 0xFF 0xFF 0xFF 0xFF 0xFF 0xFF) src) sendRes).events = [] ∧
    (mainLoopBody signedChar reg st
        (Incoming.datagram (magicPacket 0xFF 0x11 0x22 0x33 0x44 0x55) src) sendRes).events = [] := by
  have key : ∀ a b c d e f : Byte,
      ((mainLoopBody signedChar reg st
        (Incoming.datagram (magicPacket a b c d e f) src) sendRes).events = [] ↔ a = 255) := by
    intro a b c d e f
    rw [mainLoopBody_datagram]
    have h := isMagic_magicPacket a b c d e f
    by_cases ha : a = 255
    · have hm : ¬ isMagic (magicPacket a b c d e f) := fun hm => (h.mp hm) ha
      simp only [hm, if_false, true_iff]
      exact ha
    · have hm : isMagic (magicPacket a b c d e f) := h.mpr ha
      simp only [hm, if_true, ha, iff_false]
      exact List.cons_ne_nil _ _
  refine ⟨?_, key m0 m1 m2 m3 m4 m5, (key _ _ _ _ _ _).mpr rfl, (key _ _ _ _ _ _).mpr rfl⟩
  rw [accepts_iff_isMagic, isMagic_magicPacket]

/-- The filter of `GetInterfaces` spelled out: an entry qualifies exactly when
its address is present with family `AF_INET`, the address is not zero and the
loopback flag is clear. -/
theorem GetInterfaces_qualifies_iff (p : ifaddrs) :
    GetInterfaces.qualifies p = true ↔
      ∃ a, p.ifa_addr = some a ∧ a.sin_family = AF_INET ∧ 0 < a.sin_addr.s_addr ∧
        p.ifa_flags &&& IFF_LOOPBACK = 0 := by
  unfold GetInterfaces.qualifies
  cases h : p.ifa_addr with
  | none => simp [AF_INET]
  | some a => simp [and_assoc]

/-- C10: when a registered interface has netmask 0.0.0.0, `IsLocalIp` is true
for every address and no iteration of the receive loop makes a `sendto` call,
whatever the datagram, the sender and the other registered interfaces.
`GetInterfaces` does not exclude such an interface: its filter holds exactly
when the entry has an address of family `AF_INET`, the address is not zero and
the loopback flag is clear, so it gives the same answer whatever the netmask;
and when the enumeration stays within the declared slots, an entry of the
enumeration that passes these three tests and has netmask 0 is registered at a
slot below `AddrCount`, inside the arrays, with its address and netmask 0. -/
theorem zero_netmask_blocks_forwarding (signedChar : Bool) (reg : Registry) (st : LoopState)
    (inc : Incoming) (sendRes : Nat → Int) (i : Nat) (hi : i < reg.AddrCount)
    (hz : (reg.Netmask i).s_addr = 0) :
    (∀ a : in_addr, IsLocalIp reg a = true) ∧
    sendsOf (mainLoopBody signedChar reg st inc sendRes).events = [] ∧
    (∀ p : ifaddrs, GetInterfaces.qualifies p = true ↔
      ∃ a, p.ifa_addr = some a ∧ a.sin_family = AF_INET ∧ 0 < a.sin_addr.s_addr ∧
        p.ifa_flags &&& IFF_LOOPBACK = 0) ∧
    (∀ (p : ifaddrs) (nm : sockaddr_in),
      GetInterfaces.qualifies { p with ifa_netmask := nm } = GetInterfaces.qualifies p) ∧
    (∀ (reg0 : Registry) (l : List ifaddrs) (p : ifaddrs) (a : sockaddr_in),
      (GetInterfaces reg0 (some l)).1.AddrCount ≤ ADDR_SLOTS →
      p ∈ l → p.ifa_addr = some a → a.sin_family = AF_INET → 0 < a.sin_addr.s_addr →
      p.ifa_flags &&& IFF_LOOPBACK = 0 → p.ifa_netmask.sin_addr.s_addr = 0 →
      ∃ k, k < (GetInterfaces reg0 (some l)).1.AddrCount ∧ k < ADDR_SLOTS ∧
        (GetInterfaces reg0 (some l)).1.LocalAddr k = a.sin_addr ∧
        ((GetInterfaces reg0 (some l)).1.Netmask k).s_addr = 0) := by
  have hloc : ∀ a : in_addr, IsLocalIp reg a = true :=
    fun a => IsLocalIp_of_zero_netmask reg i hi hz a
  refine ⟨hloc, ?_, GetInterfaces_qualifies_iff, fun _ _ => rfl, ?_⟩
  · cases inc with
    | failure => rw [mainLoopBody_failure]; rfl
    | datagram bytes src =>
      rw [mainLoopBody_datagram]
      by_cases hm : isMagic bytes
      · simp [hm, hloc, sendsOf]
      · simp [hm, sendsOf]
  · intro reg0 l p a hcap hp ha hfam haddr hflag hn
    have hq : GetInterfaces.qualifies p = true :=
      (GetInterfaces_qualifies_iff p).mpr ⟨a, ha, hfam, haddr, hflag⟩
    have hmem : p ∈ l.filter GetInterfaces.qualifies := List.mem_filter.mpr ⟨hp, hq⟩
    obtain ⟨k, hk, hkp⟩ := List.getElem_of_mem hmem
    have hget : (l.filter GetInterfaces.qualifies)[k]? = some p := by
      rw [List.getElem?_eq_getElem hk, hkp]
    have hcount := GetInterfaces_count reg0 l
    have hent := GetInterfaces_entry reg0 l k p hget
    refine ⟨k, by omega, by omega, ?_, ?_⟩
    · rw [hent.1]
      simp [GetInterfaces.addrOf, ha]
    · rw [hent.2.1, hn]

/-- Witness for C10: enumeration of an ethernet interface and a tunnel reported
with netmask 0.0.0.0.  The tunnel passes the three tests of the filter, is
registered at slot 1, every address is then local and the valid packet from
203.0.113.7 is not relayed. -/
theorem zero_netmask_blocks_forwarding_witness :
    1 < (GetInterfaces Registry.initial (some [ethIf, tunIf])).1.AddrCount ∧
    ((GetInterfaces Registry.initial (some [ethIf, tunIf])).1.Netmask 1).s_addr = 0 ∧
    IsLocalIp (GetInterfaces Registry.initial (some [ethIf, tunIf])).1 (ip4 203 0 113 7) = true ∧
    sendsOf (mainLoopBody true (GetInterfaces Registry.initial (some [ethIf, tunIf])).1
      LoopState.zeroed (Incoming.datagram scenarioPacket ⟨AF_INET, 54321, ip4 203 0 113 7⟩)
      (fun _ => 102)).events = [] ∧
    (∃ k, k < (GetInterfaces Registry.initial (some [ethIf, tunIf])).1.AddrCount ∧
      k < ADDR_SLOTS ∧
      (GetInterfaces Registry.initial (some [ethIf, tunIf])).1.LocalAddr k = ip4 10 8 0 6 ∧
      ((GetInterfaces Registry.initial (some [ethIf, tunIf])).1.Netmask k).s_addr = 0) :=
  ⟨by decide, by decide,
   (zero_netmask_blocks_forwarding true (GetInterfaces Registry.initial (some [ethIf, tunIf])).1
      LoopState.zeroed (Incoming.datagram scenarioPacket ⟨AF_INET, 54321, ip4 203 0 113 7⟩)
      (fun _ => 102) 1 (by decide) (by decide)).1 (ip4 203 0 113 7),
   (zero_netmask_blocks_forwarding true (GetInterfaces Registry.initial (some [ethIf, tunIf])).1
      LoopState.zeroed (Incoming.datagram scenarioPacket ⟨AF_INET, 54321, ip4 203 0 113 7⟩)
      (fun _ => 102) 1 (by decide) (by decide)).2.1,
   (zero_netmask_blocks_forwarding true (GetInterfaces Registry.initial (some [ethIf, tunIf])).1
      LoopState.zeroed (Incoming.datagram scenarioPacket ⟨AF_INET, 54321, ip4 203 0 113 7⟩)
      (fun _ => 102) 1 (by decide) (by decide)).2.2.2.2 Registry.initial [ethIf, tunIf] tunIf
      ⟨AF_INET, 0, ip4 10 8 0 6⟩ (by decide) (by decide) rfl rfl (by decide) (by decide)
      (by decide)⟩

end WolProxy
